import Mathlib

/-!
# Verification of the run-parts tagged-output core

Shallow embedding of the `run-parts-rust` repository: the tagged output
multiplexer protocol, the child-completion watcher, the read loop / status
resolver (`src/exec.rs` for the library crate, `src/main.rs` for the binary,
which carries its own copy of `exec`/`write`), the per-invocation `Report`
one-shot prefix state (`src/lib.rs` / `src/main.rs`), and the per-file
driver `act_on_file` / `run` (`src/main.rs`).

Bytes are modelled as `Nat` (each chunk datum is a byte sequence, `List Nat`);
strings written by the program are converted to byte lists via `strBytes`.
The consumer-visible chunk sequence of one invocation (child stdout, child
stderr, watcher done-chunk, merged by the external `io_mux` crate) is the
input list of the read loop.  Destinations (process stdout / stderr) are
modelled as the accumulated list of bytes written to them.
-/

/-- Bytes of a string, one `Nat` per character code (the program only ever
prefixes ASCII text, where this agrees with UTF-8). -/
def strBytes (s : String) : List Nat := s.data.map Char.toNat

/-- `io_mux::TaggedData`: one chunk as delivered to the consumer, an optional
tag (`None` = child stdout, `Some "e"` = child stderr, `Some "d"` = done) and
the payload bytes. -/
structure TaggedData where
  tag : Option String
  data : List Nat
deriving DecidableEq

/-- `Status` (src/main.rs lines 70-84 and src/lib.rs lines 150-159): the
mutable exit-code register. -/
structure Status where
  exit_code : Int
deriving DecidableEq

/- Constants of the `exitcode` crate used by the program. -/
namespace exitcode

def OK : Int := 0

def SOFTWARE : Int := 70

def USAGE : Int := 64

end exitcode

/-- `Status::reset` (src/main.rs lines 81-83). -/
def Status.reset (_ : Status) : Status := ⟨exitcode.OK⟩

/-- The command-line options relevant to the embedded operations
(src/main.rs `struct Opt`); the filtering/umask/arg fields are not consulted
by the functions modelled here. -/
structure Opt where
  test : Bool
  list : Bool
  verbose : Bool
  report : Bool
  exit_on_error : Bool
deriving DecidableEq

/-- `Report` (src/main.rs lines 86-123, identical in src/lib.rs lines
161-197): per-invocation one-shot record of whether the identifying prefix
has been emitted. -/
structure Report where
  report_string : String
  report : Bool
  verbose : Bool
  used : Bool
deriving DecidableEq

/-- `Report::new`: the report string is the file path; `used` starts false. -/
def Report.new (opt : Opt) (fp : String) : Report :=
  ⟨fp, opt.report, opt.verbose, false⟩

/-- `Report::get_report`: if already used, return nothing and leave the state
alone; otherwise mark used and return the path when `condition` holds.
Returns the produced option together with the updated state (the Rust method
mutates `self`). -/
def Report.get_report (r : Report) (condition : Bool) : Option String × Report :=
  if r.used then (none, r)
  else ((if condition then some r.report_string else none), { r with used := true })

/-- `Report::out_report`: stdout prefixing is gated on `report` alone. -/
def Report.out_report (r : Report) : Option String × Report :=
  r.get_report r.report

/-- `Report::err_report`: stderr prefixing requires `report` and not
`verbose`. -/
def Report.err_report (r : Report) : Option String × Report :=
  r.get_report (r.report && !r.verbose)

namespace Exec

/-- `write` from src/exec.rs lines 59-65: the bytes appended to the
destination stream by one call — the optional prefix, then `":\n"`, then the
chunk data unchanged. -/
def write (data : List Nat) (report : Option String) : List Nat :=
  (match report with
   | some r => strBytes r ++ strBytes ":\n"
   | none => []) ++ data

end Exec

namespace Main

/-- `write` from src/main.rs lines 294-301: the optional prefix followed by
`"\n"`, then the chunk data, then an unconditional trailing `"\n"`. -/
def write (data : List Nat) (report : Option String) : List Nat :=
  (match report with
   | some r => strBytes r ++ strBytes "\n"
   | none => []) ++ data ++ strBytes "\n"

end Main

/-- State of the read loop in `exec`: the status register, the report
one-shot, the bytes written so far to the stdout and stderr destinations, and
whether the loop has hit a `break` (the `TERMINATED` state of the spec). -/
structure LoopState where
  status : Status
  report : Report
  out : List Nat
  err : List Nat
  terminated : Bool
deriving DecidableEq

/-- One iteration of the read loop of `exec` (src/exec.rs lines 40-55,
src/main.rs lines 271-290), parameterised by the `write` helper `wfn` (the
two copies differ only there).  The four match arms in source order:
tag `"d"` with a single byte resolves the status and breaks; tag `"d"` with
any other payload writes the payload verbatim to stderr, resolves the status
to `exitcode::SOFTWARE` and breaks; no tag forwards to stdout through
`write` with `report.out_report()`; any other tag forwards to stderr through
`write` with `report.err_report()`. -/
def step (wfn : List Nat → Option String → List Nat) (s : LoopState)
    (c : TaggedData) : LoopState :=
  if c.tag = some "d" then
    match c.data with
    | [exit_code] => { s with status := ⟨(exit_code : Int)⟩, terminated := true }
    | error =>
      { s with
        err := s.err ++ error
        status := ⟨exitcode.SOFTWARE⟩
        terminated := true }
  else if c.tag = none then
    match s.report.out_report with
    | (rep, report) => { s with out := s.out ++ wfn c.data rep, report := report }
  else
    match s.report.err_report with
    | (rep, report) => { s with err := s.err ++ wfn c.data rep, report := report }

/-- The read loop (`loop { ... mux.read()? ... }`): process chunks in arrival
order, stopping at the first chunk whose arm executes `break`. -/
def readLoop (wfn : List Nat → Option String → List Nat) (s : LoopState) :
    List TaggedData → LoopState
  | [] => s
  | c :: rest =>
    let s' := step wfn s c
    if s'.terminated then s' else readLoop wfn s' rest

/-- Result of `child.wait()` when it succeeds: either a normal exit with a
code (`status.code()` is `Some`) or death by signal. -/
inductive ChildWait where
  | exited (code : Int)
  | signaled (sig : Int)
deriving DecidableEq

/-- Result of `child.wait()` including the `Err` arm; `msg` stands for the
text of `format!("{:?}", e)`. -/
inductive WaitOutcome where
  | ok (w : ChildWait)
  | wfail (msg : String)
deriving DecidableEq

/-- Rust `as u8` on an `i32`: two's-complement truncation to 8 bits. -/
def asU8 (c : Int) : Nat := (c % 256).toNat

/-- The single status byte computed by the completion watcher (src/exec.rs
lines 21-27, src/main.rs lines 252-258): `code as u8` for a normal exit,
`signal as u8 + 128` (wrapping byte arithmetic) for a signalled death. -/
def watcherByte : ChildWait → Nat
  | .exited code => asU8 code
  | .signaled sig => (asU8 sig + 128) % 256

/-- The payload of the done-chunk the watcher writes: the one status byte on
a successful wait, or the bytes of `"Error: " ++ msg ++ "\n"` (a
`writeln!`-formatted description) when waiting failed. -/
def watcherPayload : WaitOutcome → List Nat
  | .ok w => [watcherByte w]
  | .wfail msg => strBytes ("Error: " ++ msg ++ "\n")

/-- The done-chunk itself: tagged `"d"`. -/
def doneChunk (w : WaitOutcome) : TaggedData := ⟨some "d", watcherPayload w⟩

/-- Outcome of `Command::new(..).spawn()` as seen by `exec`: success hands
the invocation over to the multiplexer, whose consumer-visible chunk
sequence is `chunks`; failure is the `Err` that the `?` operator
propagates. -/
inductive SpawnResult where
  | ok (chunks : List TaggedData)
  | spawnErr (e : String)
deriving DecidableEq

/-- The observable result of one `exec` call: the returned `Result`, the
final value of the status register, and the bytes written to the stdout and
stderr destinations. -/
structure ExecResult where
  result : Except String Unit
  status : Status
  out : List Nat
  err : List Nat

/-- The loop state at entry of the read loop: the caller's status register,
a fresh `Report`, nothing written yet, not terminated. -/
def initState (st : Status) (r : Report) : LoopState := ⟨st, r, [], [], false⟩

namespace Exec

/-- `exec` from src/exec.rs lines 11-57: on spawn failure the `?` operator
returns the error before the watcher is spawned or any chunk is read, and
the status register is untouched; on success the read loop consumes the
multiplexed chunk sequence. -/
def exec (opt : Opt) (fp : String) (st : Status) (sr : SpawnResult) : ExecResult :=
  match sr with
  | .spawnErr e => ⟨.error e, st, [], []⟩
  | .ok chunks =>
    let final := readLoop Exec.write (initState st (Report.new opt fp)) chunks
    ⟨.ok (), final.status, final.out, final.err⟩

end Exec

namespace Main

/-- `exec` from src/main.rs lines 242-292: identical to the library version
except that it forwards output through src/main.rs's own `write`. -/
def exec (opt : Opt) (fp : String) (st : Status) (sr : SpawnResult) : ExecResult :=
  match sr with
  | .spawnErr e => ⟨.error e, st, [], []⟩
  | .ok chunks =>
    let final := readLoop Main.write (initState st (Report.new opt fp)) chunks
    ⟨.ok (), final.status, final.out, final.err⟩

end Main

/-- What `run` knows about one file that passed the filter: its path,
whether `is_executable()` holds, and what spawning it would yield. -/
structure FileCtx where
  path : String
  executable : Bool
  spawn : SpawnResult
deriving DecidableEq

/-- A computation that either returns normally or panics (`unwrap` on an
`Err`/`None` aborts the process). -/
inductive Outcome (α : Type) where
  | ok (a : α)
  | panic
deriving DecidableEq

/-- `act_on_file` from src/main.rs lines 210-240: skip when a previous
non-zero status is latched under `--exit-on-error`; otherwise reset the
status register, then return early in list mode, for non-executable files
and in test mode; otherwise run `exec` — whose `Err` is `.unwrap()`ed,
turning a spawn failure into a process-aborting panic. -/
def act_on_file (opt : Opt) (f : FileCtx) (st : Status) : Outcome Status :=
  if opt.exit_on_error = true ∧ st.exit_code ≠ exitcode.OK then .ok st
  else
    let st := st.reset
    if opt.list then .ok st
    else if !f.executable then .ok st
    else if opt.test then .ok st
    else
      match Main.exec opt f.path st f.spawn with
      | ⟨.error _, _, _, _⟩ => .panic
      | ⟨.ok _, st', _, _⟩ => .ok st'

/-- The loop of `run` (src/main.rs lines 303-311) over the already-filtered
file list: fold `act_on_file` through a fresh status register; a panic in
any iteration aborts the whole run. -/
def run_files (opt : Opt) : List FileCtx → Status → Outcome Status
  | [], st => .ok st
  | f :: rest, st =>
    match act_on_file opt f st with
    | .ok st' => run_files opt rest st'
    | .panic => .panic

/-- `run` itself starts from `Status::new()`, i.e. `exitcode::OK`. -/
def run (opt : Opt) (files : List FileCtx) : Outcome Status :=
  run_files opt files ⟨exitcode.OK⟩

namespace Mux

/-- Modelled from the spec: the multiplexer itself lives in the external
`io_mux` crate, not in this repository.  Per spec sections 3, 4.1 and the
design note, each producer owns a FIFO queue of its written chunks and the
consumer sees some interleaving: which producer's queue is popped next is an
arbitrary schedule.  `update q p l` replaces producer `p`'s queue. -/
def update {P β : Type} [DecidableEq P] (q : P → List β) (p : P) (l : List β) :
    P → List β :=
  fun x => if x = p then l else q x

/-- Modelled from the spec: the consumer-visible delivery of the queues
`q` under a schedule `sched`; at each schedule point the named producer's
oldest undelivered chunk (if any) is handed to the consumer, labelled with
its producer. -/
def deliver {P β : Type} [DecidableEq P] : List P → (P → List β) → List (P × β)
  | [], _ => []
  | p :: sched, q =>
    match q p with
    | [] => deliver sched q
    | b :: rest => (p, b) :: deliver sched (update q p rest)

/-- The subsequence of consumer reads that came from producer `p`. -/
def proj {P β : Type} [DecidableEq P] (p : P) (l : List (P × β)) : List β :=
  l.filterMap (fun x => if x.1 = p then some x.2 else none)

end Mux

/-- One emission attempt against the `Report` one-shot: the read loop calls
`out_report` for an untagged chunk and `err_report` for a stderr chunk. -/
inductive RCall where
  | out
  | err
deriving DecidableEq

/-- Dispatch of one emission attempt. -/
def applyCall (r : Report) : RCall → Option String × Report
  | .out => r.out_report
  | .err => r.err_report

/-- A whole sequence of emission attempts, returning the produced prefix
options in order together with the final report state. -/
def runCalls (r : Report) : List RCall → List (Option String) × Report
  | [] => ([], r)
  | c :: cs =>
    let p := applyCall r c
    let q := runCalls p.2 cs
    (p.1 :: q.1, q.2)

/-! ## Reduction lemmas for the read loop -/

theorem readLoop_nil (wfn : List Nat → Option String → List Nat) (s : LoopState) :
    readLoop wfn s [] = s := rfl

theorem readLoop_cons (wfn : List Nat → Option String → List Nat) (s : LoopState)
    (c : TaggedData) (rest : List TaggedData) :
    readLoop wfn s (c :: rest) =
      if (step wfn s c).terminated then step wfn s c
      else readLoop wfn (step wfn s c) rest := rfl

theorem readLoop_single (wfn : List Nat → Option String → List Nat) (s : LoopState)
    (c : TaggedData) : readLoop wfn s [c] = step wfn s c := by
  rw [readLoop_cons]
  split <;> rfl

theorem step_done_single (wfn : List Nat → Option String → List Nat) (s : LoopState)
    (b : Nat) :
    step wfn s ⟨some "d", [b]⟩ =
      { s with status := ⟨(b : Int)⟩, terminated := true } := rfl

theorem step_done_nil (wfn : List Nat → Option String → List Nat) (s : LoopState) :
    step wfn s ⟨some "d", []⟩ =
      { s with err := s.err ++ [], status := ⟨exitcode.SOFTWARE⟩,
               terminated := true } := rfl

theorem step_done_long (wfn : List Nat → Option String → List Nat) (s : LoopState)
    (b1 b2 : Nat) (t : List Nat) :
    step wfn s ⟨some "d", b1 :: b2 :: t⟩ =
      { s with err := s.err ++ (b1 :: b2 :: t), status := ⟨exitcode.SOFTWARE⟩,
               terminated := true } := rfl

theorem step_untagged (wfn : List Nat → Option String → List Nat) (s : LoopState)
    (d : List Nat) :
    step wfn s ⟨none, d⟩ =
      { s with out := s.out ++ wfn d (s.report.out_report).1,
               report := (s.report.out_report).2 } := rfl

theorem step_tagged (wfn : List Nat → Option String → List Nat) (s : LoopState)
    (t : String) (d : List Nat) (h : t ≠ "d") :
    step wfn s ⟨some t, d⟩ =
      { s with err := s.err ++ wfn d (s.report.err_report).1,
               report := (s.report.err_report).2 } := by
  simp [step, h]

theorem step_done_terminated (wfn : List Nat → Option String → List Nat)
    (s : LoopState) (c : TaggedData) (h : c.tag = some "d") :
    (step wfn s c).terminated = true := by
  rcases c with ⟨tg, d⟩
  rcases tg with _ | t
  · cases h
  · have : t = "d" := by simpa using h
    subst this
    rcases d with _ | ⟨b, _ | ⟨b2, u⟩⟩
    · rw [step_done_nil]
    · rw [step_done_single]
    · rw [step_done_long]

theorem step_not_done (wfn : List Nat → Option String → List Nat) (s : LoopState)
    (c : TaggedData) (h : c.tag ≠ some "d") :
    (step wfn s c).terminated = s.terminated ∧ (step wfn s c).status = s.status := by
  rcases c with ⟨tg, d⟩
  rcases tg with _ | t
  · rw [step_untagged]
    exact ⟨rfl, rfl⟩
  · have ht : t ≠ "d" := by simpa using h
    rw [step_tagged wfn s t d ht]
    exact ⟨rfl, rfl⟩

theorem step_out_mono (wfn : List Nat → Option String → List Nat) (s : LoopState)
    (c : TaggedData) : ∃ t, (step wfn s c).out = s.out ++ t := by
  rcases c with ⟨tg, d⟩
  rcases tg with _ | t
  · exact ⟨wfn d (s.report.out_report).1, by rw [step_untagged]⟩
  · by_cases ht : t = "d"
    · subst ht
      rcases d with _ | ⟨b, _ | ⟨b2, u⟩⟩
      · exact ⟨[], by rw [step_done_nil]; simp⟩
      · exact ⟨[], by rw [step_done_single]; simp⟩
      · exact ⟨[], by rw [step_done_long]; simp⟩
    · exact ⟨[], by rw [step_tagged wfn s t d ht]; simp⟩

theorem step_err_mono (wfn : List Nat → Option String → List Nat) (s : LoopState)
    (c : TaggedData) : ∃ t, (step wfn s c).err = s.err ++ t := by
  rcases c with ⟨tg, d⟩
  rcases tg with _ | t
  · exact ⟨[], by rw [step_untagged]; simp⟩
  · by_cases ht : t = "d"
    · subst ht
      rcases d with _ | ⟨b, _ | ⟨b2, u⟩⟩
      · exact ⟨[], by rw [step_done_nil]⟩
      · exact ⟨[], by rw [step_done_single]; simp⟩
      · exact ⟨b :: b2 :: u, by rw [step_done_long]⟩
    · exact ⟨wfn d (s.report.err_report).1, by rw [step_tagged wfn s t d ht]⟩

theorem readLoop_out_mono (wfn : List Nat → Option String → List Nat) :
    ∀ (l : List TaggedData) (s : LoopState),
      ∃ t, (readLoop wfn s l).out = s.out ++ t := by
  intro l
  induction l with
  | nil => exact fun s => ⟨[], by simp [readLoop_nil]⟩
  | cons c rest ih =>
    intro s
    rw [readLoop_cons]
    obtain ⟨t1, h1⟩ := step_out_mono wfn s c
    split
    · exact ⟨t1, h1⟩
    · obtain ⟨t2, h2⟩ := ih (step wfn s c)
      exact ⟨t1 ++ t2, by rw [h2, h1, List.append_assoc]⟩

theorem readLoop_err_mono (wfn : List Nat → Option String → List Nat) :
    ∀ (l : List TaggedData) (s : LoopState),
      ∃ t, (readLoop wfn s l).err = s.err ++ t := by
  intro l
  induction l with
  | nil => exact fun s => ⟨[], by simp [readLoop_nil]⟩
  | cons c rest ih =>
    intro s
    rw [readLoop_cons]
    obtain ⟨t1, h1⟩ := step_err_mono wfn s c
    split
    · exact ⟨t1, h1⟩
    · obtain ⟨t2, h2⟩ := ih (step wfn s c)
      exact ⟨t1 ++ t2, by rw [h2, h1, List.append_assoc]⟩

/-! ## Report one-shot lemmas -/

theorem get_report_used (r : Report) (cond : Bool) :
    ((r.get_report cond).2).used = true := by
  rw [Report.get_report]
  split
  · assumption
  · rfl

theorem out_report_of_used (r : Report) (h : r.used = true) :
    r.out_report = (none, r) := by
  simp [Report.out_report, Report.get_report, h]

theorem err_report_of_used (r : Report) (h : r.used = true) :
    r.err_report = (none, r) := by
  simp [Report.err_report, Report.get_report, h]

theorem applyCall_used (r : Report) (c : RCall) : ((applyCall r c).2).used = true := by
  cases c
  · exact get_report_used r r.report
  · exact get_report_used r (r.report && !r.verbose)

theorem applyCall_of_used (r : Report) (c : RCall) (h : r.used = true) :
    applyCall r c = (none, r) := by
  cases c
  · exact out_report_of_used r h
  · exact err_report_of_used r h

theorem runCalls_of_used (r : Report) (h : r.used = true) :
    ∀ cs : List RCall, runCalls r cs = (List.replicate cs.length none, r) := by
  intro cs
  induction cs with
  | nil => rfl
  | cons c rest ih =>
    rw [runCalls, applyCall_of_used r c h]
    simp [ih, List.replicate]

/-! ## Read-loop segmentation and forwarding lemmas -/

theorem readLoop_nondone (wfn : List Nat → Option String → List Nat) :
    ∀ (l₁ : List TaggedData) (s : LoopState) (l₂ : List TaggedData),
      (∀ c ∈ l₁, c.tag ≠ some "d") → s.terminated = false →
      readLoop wfn s (l₁ ++ l₂) = readLoop wfn (readLoop wfn s l₁) l₂
      ∧ (readLoop wfn s l₁).terminated = false := by
  intro l₁
  induction l₁ with
  | nil => exact fun s l₂ _ hs => ⟨rfl, hs⟩
  | cons c rest ih =>
    intro s l₂ hnd hs
    have hc : c.tag ≠ some "d" := hnd c (by simp)
    have hterm : (step wfn s c).terminated = false := by
      rw [(step_not_done wfn s c hc).1]; exact hs
    have hrest : ∀ x ∈ rest, x.tag ≠ some "d" := fun x hx => hnd x (by simp [hx])
    rw [List.cons_append, readLoop_cons, readLoop_cons, hterm]
    simp only [Bool.false_eq_true, if_false]
    exact ih (step wfn s c) l₂ hrest hterm

theorem readLoop_forwards (wfn : List Nat → Option String → List Nat)
    (hw : ∀ d rep, ∃ p, wfn d rep = p ++ d) :
    ∀ (l : List TaggedData) (s : LoopState),
      (∀ c ∈ l, c.tag ≠ some "d") → s.terminated = false →
      ∀ c ∈ l,
        (c.tag = none → ∃ x y, (readLoop wfn s l).out = x ++ c.data ++ y)
        ∧ (c.tag ≠ none → ∃ x y, (readLoop wfn s l).err = x ++ c.data ++ y) := by
  intro l
  induction l with
  | nil => exact fun s _ _ c hc => absurd hc (List.not_mem_nil c)
  | cons a rest ih =>
    intro s hnd hs c hc
    have ha : a.tag ≠ some "d" := hnd a (by simp)
    have hterm : (step wfn s a).terminated = false := by
      rw [(step_not_done wfn s a ha).1]; exact hs
    have hrest : ∀ x ∈ rest, x.tag ≠ some "d" := fun x hx => hnd x (by simp [hx])
    rw [readLoop_cons, hterm]
    simp only [Bool.false_eq_true, if_false]
    rcases List.mem_cons.mp hc with rfl | hc'
    · constructor
      · intro htag
        rcases c with ⟨tg, d⟩
        simp only at htag
        subst htag
        obtain ⟨p, hp⟩ := hw d (s.report.out_report).1
        obtain ⟨t, hgrow⟩ := readLoop_out_mono wfn rest (step wfn s ⟨none, d⟩)
        refine ⟨s.out ++ p, t, ?_⟩
        rw [hgrow, step_untagged]
        simp only [hp]
        simp [List.append_assoc]
      · intro htag
        rcases c with ⟨tg, d⟩
        simp only at htag
        rcases tg with _ | t
        · exact absurd rfl htag
        · have ht : t ≠ "d" := by simpa using ha
          obtain ⟨p, hp⟩ := hw d (s.report.err_report).1
          obtain ⟨u, hgrow⟩ := readLoop_err_mono wfn rest (step wfn s ⟨some t, d⟩)
          refine ⟨s.err ++ p, u, ?_⟩
          rw [hgrow, step_tagged wfn s t d ht]
          simp only [hp]
          simp [List.append_assoc]
    · exact ih (step wfn s a) hrest hterm c hc'

theorem readLoop_untagged_used (wfn : List Nat → Option String → List Nat) :
    ∀ (datas : List (List Nat)) (s : LoopState),
      s.report.used = true → s.terminated = false →
      readLoop wfn s (datas.map (fun d => ⟨none, d⟩)) =
        { s with out := s.out ++ (datas.map (fun d => wfn d none)).flatten } := by
  intro datas
  induction datas with
  | nil => intro s _ _; simp [readLoop_nil]
  | cons d ds ih =>
    intro s hu ht
    rw [List.map_cons, readLoop_cons, step_untagged, out_report_of_used s.report hu]
    simp only [ht, Bool.false_eq_true, if_false]
    rw [ih { s with out := s.out ++ wfn d none, report := s.report, terminated := false }
        hu rfl]
    simp [List.append_assoc]

/-! ## Watcher payload and done-chunk lemmas -/

theorem watcherPayload_wfail (msg : String) :
    ∃ t, watcherPayload (.wfail msg) = 69 :: 114 :: t := by
  simp [watcherPayload, strBytes, String.data_append]

theorem step_done_wfail (wfn : List Nat → Option String → List Nat) (s : LoopState)
    (msg : String) :
    step wfn s (doneChunk (.wfail msg)) =
      { s with err := s.err ++ watcherPayload (.wfail msg),
               status := ⟨exitcode.SOFTWARE⟩, terminated := true } := by
  obtain ⟨t, hpt⟩ := watcherPayload_wfail msg
  rw [doneChunk, hpt, step_done_long]

theorem step_done_out (wfn : List Nat → Option String → List Nat) (s : LoopState)
    (c : TaggedData) (h : c.tag = some "d") : (step wfn s c).out = s.out := by
  rcases c with ⟨tg, d⟩
  simp only at h
  subst h
  rcases d with _ | ⟨b, _ | ⟨b2, u⟩⟩
  · rw [step_done_nil]
  · rw [step_done_single]
  · rw [step_done_long]

/-! ## Driver lemmas: act_on_file and run_files -/

theorem act_on_file_skip (opt : Opt) (l : FileCtx) (s : Status)
    (he : opt.exit_on_error = false)
    (hskip : opt.list = true ∨ l.executable = false ∨ opt.test = true) :
    act_on_file opt l s = .ok ⟨exitcode.OK⟩ := by
  rw [act_on_file, if_neg (by simp [he])]
  simp only [Status.reset]
  rcases hskip with h | h | h <;> simp [h]

theorem act_on_file_run (opt : Opt) (f : FileCtx) (s : Status)
    (he : opt.exit_on_error = false) (hl : opt.list = false)
    (hx : f.executable = true) (ht : opt.test = false) :
    act_on_file opt f s =
      match Main.exec opt f.path ⟨exitcode.OK⟩ f.spawn with
      | ⟨.error _, _, _, _⟩ => .panic
      | ⟨.ok _, st', _, _⟩ => .ok st' := by
  rw [act_on_file, if_neg (by simp [he])]
  simp [hl, hx, ht, Status.reset]

theorem run_files_append (opt : Opt) :
    ∀ (xs : List FileCtx) (l : FileCtx) (st : Status),
      run_files opt (xs ++ [l]) st =
        match run_files opt xs st with
        | .ok st₁ => act_on_file opt l st₁
        | .panic => .panic := by
  intro xs
  induction xs with
  | nil =>
    intro l st
    rw [List.nil_append, run_files, run_files]
    cases h : act_on_file opt l st <;> simp [h, run_files]
  | cons f fs ih =>
    intro l st
    rw [List.cons_append, run_files, run_files]
    cases h : act_on_file opt f st <;> simp [h, ih]

/-! ## Multiplexer delivery lemmas (spec-modelled component) -/

theorem Mux.update_self {P β : Type} [DecidableEq P] (q : P → List β) (p : P)
    (l : List β) : Mux.update q p l p = l := by
  simp [Mux.update]

theorem Mux.update_other {P β : Type} [DecidableEq P] (q : P → List β) (p x : P)
    (l : List β) (h : x ≠ p) : Mux.update q p l x = q x := by
  simp [Mux.update, h]

theorem Mux.proj_cons_self {P β : Type} [DecidableEq P] (p : P) (b : β)
    (l : List (P × β)) : Mux.proj p ((p, b) :: l) = b :: Mux.proj p l := by
  simp [Mux.proj]

theorem Mux.proj_cons_other {P β : Type} [DecidableEq P] (p a : P) (b : β)
    (l : List (P × β)) (h : a ≠ p) :
    Mux.proj p ((a, b) :: l) = Mux.proj p l := by
  simp [Mux.proj, h]

theorem Mux.deliver_fifo {P β : Type} [DecidableEq P] :
    ∀ (sched : List P) (q : P → List β) (p : P),
      ∃ t, Mux.proj p (Mux.deliver sched q) ++ t = q p := by
  intro sched
  induction sched with
  | nil => exact fun q p => ⟨q p, by simp [Mux.deliver, Mux.proj]⟩
  | cons a sched ih =>
    intro q p
    rw [Mux.deliver]
    cases hqa : q a with
    | nil => exact ih q p
    | cons b rest =>
      by_cases hap : a = p
      · subst hap
        rw [Mux.proj_cons_self]
        obtain ⟨t, hpt⟩ := ih (Mux.update q a rest) a
        rw [Mux.update_self] at hpt
        exact ⟨t, by rw [List.cons_append, hpt, hqa]⟩
      · rw [Mux.proj_cons_other p a b _ hap]
        obtain ⟨t, hpt⟩ := ih (Mux.update q a rest) p
        rw [Mux.update_other q a p rest (fun hpa => hap hpa.symm)] at hpt
        exact ⟨t, hpt⟩

/-! ## Auxiliary counting and first-chunk lemmas -/

theorem countP_isSome_replicate_none (n : Nat) :
    (List.replicate n (none : Option String)).countP (fun o => o.isSome) = 0 := by
  induction n with
  | zero => rfl
  | succ k ih => simp [List.replicate, List.countP_cons, ih]

theorem readLoop_report_first (wfn : List Nat → Option String → List Nat)
    (opt : Opt) (fp : String) (st : Status) (w : WaitOutcome)
    (d : List Nat) (ds : List (List Nat)) (hrep : opt.report = true) :
    (readLoop wfn (initState st (Report.new opt fp))
        ((d :: ds).map (fun x => ⟨none, x⟩) ++ [doneChunk w])).out
      = wfn d (some fp) ++ (ds.map (fun x => wfn x none)).flatten := by
  have hnew : (Report.new opt fp).out_report
      = (some fp, ⟨fp, opt.report, opt.verbose, true⟩) := by
    simp [Report.new, Report.out_report, Report.get_report, hrep]
  rw [List.map_cons, List.cons_append, readLoop_cons, step_untagged]
  simp only [initState] at *
  rw [hnew]
  simp only [Bool.false_eq_true, if_false]
  set s₁ : LoopState :=
    { status := st, report := ⟨fp, opt.report, opt.verbose, true⟩,
      out := [] ++ wfn d (some fp), err := [], terminated := false } with hs₁
  have hnd : ∀ x ∈ ds.map (fun x => (⟨none, x⟩ : TaggedData)), x.tag ≠ some "d" := by
    intro x hx
    obtain ⟨a, _, rfl⟩ := List.mem_map.mp hx
    simp
  obtain ⟨happ, _⟩ :=
    readLoop_nondone wfn (ds.map (fun x => ⟨none, x⟩)) s₁ [doneChunk w] hnd rfl
  rw [happ]
  rw [readLoop_untagged_used wfn ds s₁ rfl rfl]
  rw [readLoop_single]
  rw [step_done_out wfn _ (doneChunk w) rfl]
  simp

/-! ## Claim theorems -/

/-- C1: for every child invocation, the exit status delivered in the one-byte
done-chunk and stored as the resolved status follows the conventional shell
encoding: a normal exit with code c (0-255) puts the payload byte c in the
done-chunk and resolves the status to c, and death by signal s puts the
payload byte 128+s and resolves the status to 128+s. -/
theorem C1_exit_status_encoding (opt : Opt) (fp : String) (st : Status)
    (c s : Int) (hc0 : 0 ≤ c) (hc1 : c ≤ 255) (hs0 : 0 ≤ s) (hs1 : s < 128) :
    watcherPayload (.ok (.exited c)) = [c.toNat]
    ∧ (Exec.exec opt fp st (.ok [doneChunk (.ok (.exited c))])).status.exit_code = c
    ∧ watcherPayload (.ok (.signaled s)) = [(128 + s).toNat]
    ∧ (Exec.exec opt fp st (.ok [doneChunk (.ok (.signaled s))])).status.exit_code
        = 128 + s := by
  have hbc : watcherByte (.exited c) = c.toNat := by
    simp only [watcherByte, asU8]; omega
  have hbs : watcherByte (.signaled s) = (128 + s).toNat := by
    simp only [watcherByte, asU8]; omega
  refine ⟨by rw [watcherPayload, hbc], ?_, by rw [watcherPayload, hbs], ?_⟩
  · simp only [Exec.exec, doneChunk, watcherPayload, readLoop_single, step_done_single]
    rw [hbc]; omega
  · simp only [Exec.exec, doneChunk, watcherPayload, readLoop_single, step_done_single]
    rw [hbs]; omega

/-- Witness for C1: a child exiting with code 42 resolves to 42, a child
killed by signal 9 resolves to 137. -/
theorem C1_witness :
    (Exec.exec ⟨false, false, false, true, false⟩ "/d/10foo" ⟨0⟩
        (.ok [doneChunk (.ok (.exited 42))])).status.exit_code = 42
    ∧ (Exec.exec ⟨false, false, false, true, false⟩ "/d/10foo" ⟨0⟩
        (.ok [doneChunk (.ok (.signaled 9))])).status.exit_code = 137 := by
  have h := C1_exit_status_encoding ⟨false, false, false, true, false⟩ "/d/10foo" ⟨0⟩
    42 9 (by norm_num) (by norm_num) (by norm_num) (by norm_num)
  refine ⟨h.2.1, ?_⟩
  have h4 := h.2.2.2
  omega

/-- C2: on a wait failure the watcher writes a multi-byte (length not 1)
error payload to the done tag; the read loop, on a done-chunk whose payload
length is not 1, appends that payload verbatim to the error destination,
resolves the status to the fixed internal-software-error code
(`exitcode::SOFTWARE`), and terminates. -/
theorem C2_wait_failure_oversized_done (opt : Opt) (fp : String) (st : Status)
    (msg : String) (wfn : List Nat → Option String → List Nat) (s : LoopState) :
    (watcherPayload (.wfail msg)).length ≠ 1
    ∧ step wfn s (doneChunk (.wfail msg)) =
        { s with err := s.err ++ watcherPayload (.wfail msg),
                 status := ⟨exitcode.SOFTWARE⟩, terminated := true }
    ∧ (Exec.exec opt fp st (.ok [doneChunk (.wfail msg)])).err
        = watcherPayload (.wfail msg)
    ∧ (Exec.exec opt fp st (.ok [doneChunk (.wfail msg)])).status.exit_code
        = exitcode.SOFTWARE := by
  obtain ⟨t, hpt⟩ := watcherPayload_wfail msg
  refine ⟨by rw [hpt]; simp, step_done_wfail wfn s msg, ?_, ?_⟩
  · simp only [Exec.exec, readLoop_single, step_done_wfail]
    simp [initState]
  · simp only [Exec.exec, readLoop_single, step_done_wfail]

/-- C3: the read loop terminates on, and only on, receipt of a done-chunk;
every other chunk received before it is forwarded to its destination stream
(its bytes appear on the stream), never dropped; and chunks arriving after
the `TERMINATED` state is reached have no effect on the loop's result. -/
theorem C3_loop_termination_and_forwarding (s₀ : LoopState)
    (before after : List TaggedData) (dc : TaggedData)
    (h₀ : s₀.terminated = false)
    (hb : ∀ c ∈ before, c.tag ≠ some "d")
    (hd : dc.tag = some "d") :
    readLoop Exec.write s₀ (before ++ dc :: after)
      = readLoop Exec.write s₀ (before ++ [dc])
    ∧ (readLoop Exec.write s₀ (before ++ dc :: after)).terminated = true
    ∧ (readLoop Exec.write s₀ before).terminated = false
    ∧ ∀ c ∈ before,
        (c.tag = none →
          ∃ x y, (readLoop Exec.write s₀ (before ++ dc :: after)).out
                   = x ++ c.data ++ y)
        ∧ (c.tag ≠ none →
          ∃ x y, (readLoop Exec.write s₀ (before ++ dc :: after)).err
                   = x ++ c.data ++ y) := by
  obtain ⟨happ, hterm⟩ := readLoop_nondone Exec.write before s₀ (dc :: after) hb h₀
  obtain ⟨happ1, _⟩ := readLoop_nondone Exec.write before s₀ [dc] hb h₀
  have hstep : (step Exec.write (readLoop Exec.write s₀ before) dc).terminated = true :=
    step_done_terminated _ _ _ hd
  have h1 : readLoop Exec.write (readLoop Exec.write s₀ before) (dc :: after)
      = step Exec.write (readLoop Exec.write s₀ before) dc := by
    rw [readLoop_cons, hstep]
    simp
  have h2 : readLoop Exec.write (readLoop Exec.write s₀ before) [dc]
      = step Exec.write (readLoop Exec.write s₀ before) dc :=
    readLoop_single Exec.write _ dc
  have hfinal : readLoop Exec.write s₀ (before ++ dc :: after)
      = step Exec.write (readLoop Exec.write s₀ before) dc := by
    rw [happ, h1]
  have hw : ∀ (d : List Nat) (rep : Option String), ∃ p, Exec.write d rep = p ++ d :=
    fun d rep => ⟨_, rfl⟩
  have hforward := readLoop_forwards Exec.write hw before s₀ hb h₀
  refine ⟨by rw [hfinal, happ1, h2], by rw [hfinal, hstep], hterm, ?_⟩
  intro c hc
  obtain ⟨hout, herr⟩ := hforward c hc
  constructor
  · intro htag
    obtain ⟨x, y, hxy⟩ := hout htag
    exact ⟨x, y, by rw [hfinal, step_done_out Exec.write _ dc hd, hxy]⟩
  · intro htag
    obtain ⟨x, y, hxy⟩ := herr htag
    obtain ⟨u, hu⟩ := step_err_mono Exec.write (readLoop Exec.write s₀ before) dc
    exact ⟨x, y ++ u, by rw [hfinal, hu, hxy]; simp [List.append_assoc]⟩

/-- Witness for C3: one stdout chunk and one stderr chunk before the done
chunk, one stray chunk after it. -/
theorem C3_witness :
    ((initState ⟨0⟩ (Report.new ⟨false, false, false, true, false⟩ "/d/10foo")
        : LoopState).terminated = false)
    ∧ (readLoop Exec.write
        (initState ⟨0⟩ (Report.new ⟨false, false, false, true, false⟩ "/d/10foo"))
        ([⟨none, [104, 105]⟩, ⟨some "e", [33]⟩]
          ++ doneChunk (.ok (.exited 0)) :: [⟨none, [120]⟩])).terminated = true := by
  have h := C3_loop_termination_and_forwarding
    (initState ⟨0⟩ (Report.new ⟨false, false, false, true, false⟩ "/d/10foo"))
    [⟨none, [104, 105]⟩, ⟨some "e", [33]⟩] [⟨none, [120]⟩]
    (doneChunk (.ok (.exited 0))) rfl (by decide) rfl
  exact ⟨rfl, h.2.1⟩

/-- C4: with reporting enabled, across any sequence of emission attempts
from the two streams at most one yields the prefix; the one-shot `used`
flag becomes true on the first attempt, whichever stream makes it, a
once-used report answers every later attempt with nothing (the flag never
transitions back), and a first stdout attempt with reporting on does emit
the path. -/
theorem C4_report_once (r : Report) (calls : List RCall) (c : RCall) (r' : Report)
    (hr : r.report = true) (hu : r.used = false) (hu' : r'.used = true) :
    (runCalls r calls).1.countP (fun o => o.isSome) ≤ 1
    ∧ (calls ≠ [] → ((runCalls r calls).2).used = true)
    ∧ ((applyCall r c).2).used = true
    ∧ applyCall r' c = (none, r')
    ∧ (applyCall r .out).1 = some r.report_string := by
  refine ⟨?_, ?_, applyCall_used r c, applyCall_of_used r' c hu', ?_⟩
  · cases calls with
    | nil => simp [runCalls]
    | cons c₀ cs =>
      rw [runCalls]
      rw [runCalls_of_used (applyCall r c₀).2 (applyCall_used r c₀) cs]
      simp only [List.countP_cons]
      rw [countP_isSome_replicate_none]
      cases h : (applyCall r c₀).1 <;> simp
  · intro hne
    cases calls with
    | nil => exact absurd rfl hne
    | cons c₀ cs =>
      rw [runCalls]
      rw [runCalls_of_used (applyCall r c₀).2 (applyCall_used r c₀) cs]
      exact applyCall_used r c₀
  · simp [applyCall, Report.out_report, Report.get_report, hu, hr]

/-- Witness for C4: a fresh reporting-enabled report, attempts from stderr
then stdout. -/
theorem C4_witness :
    ((runCalls ⟨"/d/10foo", true, false, false⟩ [.err, .out]).1.countP
        (fun o => o.isSome) ≤ 1)
    ∧ (([RCall.err, RCall.out] : List RCall) ≠ [] →
        ((runCalls ⟨"/d/10foo", true, false, false⟩ [.err, .out]).2).used = true)
    ∧ ((applyCall ⟨"/d/10foo", true, false, false⟩ .out).2).used = true
    ∧ applyCall ⟨"/d/10foo", true, false, true⟩ .out
        = (none, ⟨"/d/10foo", true, false, true⟩)
    ∧ (applyCall ⟨"/d/10foo", true, false, false⟩ .out).1 = some "/d/10foo" :=
  C4_report_once ⟨"/d/10foo", true, false, false⟩ [.err, .out] .out
    ⟨"/d/10foo", true, false, true⟩ rfl rfl rfl

/-- C5 counterexample: with reporting enabled, child path /d/10foo and the
child writing "hi" to stdout only, the binary (src/main.rs `write`) does not
deliver exactly the prefix "/d/10foo:\n" followed by the chunk bytes
unchanged — it emits "/d/10foo" ++ "\n" and appends "\n" after the chunk. -/
theorem C5_counterexample :
    (Main.exec ⟨false, false, false, true, false⟩ "/d/10foo" ⟨0⟩
        (.ok [⟨none, strBytes "hi"⟩, doneChunk (.ok (.exited 0))])).out
      ≠ strBytes "/d/10foo:\n" ++ strBytes "hi" := by decide

/-- C5 (amended): with reporting enabled and a child at path fp writing only
to stdout, the library executor (src/exec.rs) delivers exactly the prefix
fp ++ ":\n" once, before the first chunk, followed by all chunk bytes
unchanged; the binary executor (src/main.rs) instead delivers fp ++ "\n"
before the first chunk and appends "\n" after every chunk. -/
theorem C5_amended_prefix_output (opt : Opt) (fp : String) (st : Status)
    (w : WaitOutcome) (d : List Nat) (ds : List (List Nat))
    (hrep : opt.report = true) :
    (Exec.exec opt fp st
        (.ok ((d :: ds).map (fun x => ⟨none, x⟩) ++ [doneChunk w]))).out
      = strBytes fp ++ strBytes ":\n" ++ (d :: ds).flatten
    ∧ (Main.exec opt fp st
        (.ok ((d :: ds).map (fun x => ⟨none, x⟩) ++ [doneChunk w]))).out
      = strBytes fp ++ strBytes "\n"
          ++ ((d :: ds).map (fun x => x ++ strBytes "\n")).flatten := by
  constructor
  · show (readLoop Exec.write (initState st (Report.new opt fp)) _).out = _
    rw [readLoop_report_first Exec.write opt fp st w d ds hrep]
    simp [Exec.write, List.append_assoc]
  · show (readLoop Main.write (initState st (Report.new opt fp)) _).out = _
    rw [readLoop_report_first Main.write opt fp st w d ds hrep]
    simp [Main.write, List.append_assoc]

/-- Witness for C5 (amended): the /d/10foo scenario with child output
"hello\n", for the library executor. -/
theorem C5_witness :
    (Exec.exec ⟨false, false, false, true, false⟩ "/d/10foo" ⟨0⟩
        (.ok (([strBytes "hello\n"].map (fun x => ⟨none, x⟩))
          ++ [doneChunk (.ok (.exited 0))]))).out
      = strBytes "/d/10foo" ++ strBytes ":\n" ++ [strBytes "hello\n"].flatten :=
  (C5_amended_prefix_output ⟨false, false, false, true, false⟩ "/d/10foo" ⟨0⟩
    (.ok (.exited 0)) (strBytes "hello\n") [] rfl).1

/-- C6: a spawn failure is returned synchronously as an error to `exec`'s
caller (never swallowed); the status register keeps its prior value and
nothing is forwarded to either destination — no multiplexer traffic is
consumed. -/
theorem C6_spawn_failure_surfaced (opt : Opt) (fp : String) (st : Status)
    (e : String) :
    (Exec.exec opt fp st (.spawnErr e)).result = .error e
    ∧ (Exec.exec opt fp st (.spawnErr e)).status = st
    ∧ (Exec.exec opt fp st (.spawnErr e)).out = []
    ∧ (Exec.exec opt fp st (.spawnErr e)).err = [] :=
  ⟨rfl, rfl, rfl, rfl⟩

/-- C7 counterexample: a spawn failure on a single executable file makes
`act_on_file` panic — `exec(opt, fp, status).unwrap()` in src/main.rs line
231 aborts the whole run, so the claim that no local failure crashes the
process is false. -/
theorem C7_counterexample :
    act_on_file ⟨false, false, false, false, false⟩
      ⟨"/d/broken", true, .spawnErr "No such file or directory (os error 2)"⟩
      ⟨exitcode.OK⟩ = .panic := by decide

/-- C7 (amended): a wait failure local to one invocation resolves to the
internal-error status without aborting the run, and execution continues with
the next file; a spawn failure, however, propagates out of `act_on_file`
through `.unwrap()` as a panic that aborts the whole run. -/
theorem C7_amended_local_failures (opt : Opt) (f : FileCtx) (st : Status)
    (msg e : String) (rest : List FileCtx)
    (he : opt.exit_on_error = false) (hl : opt.list = false)
    (ht : opt.test = false) (hx : f.executable = true) :
    (f.spawn = .ok [doneChunk (.wfail msg)] →
       act_on_file opt f st = .ok ⟨exitcode.SOFTWARE⟩
       ∧ run_files opt (f :: rest) st = run_files opt rest ⟨exitcode.SOFTWARE⟩)
    ∧ (f.spawn = .spawnErr e →
       act_on_file opt f st = .panic
       ∧ run_files opt (f :: rest) st = .panic) := by
  have hbase := act_on_file_run opt f st he hl hx ht
  constructor
  · intro hs
    have hequal : act_on_file opt f st = .ok ⟨exitcode.SOFTWARE⟩ := by
      rw [hbase, hs]
      simp only [Main.exec, readLoop_single, step_done_wfail]
    exact ⟨hequal, by rw [run_files, hequal]⟩
  · intro hs
    have hequal : act_on_file opt f st = .panic := by
      rw [hbase, hs]
      simp only [Main.exec]
    exact ⟨hequal, by rw [run_files, hequal]⟩

/-- Witness for C7 (amended): a file whose wait fails with "ECHILD". -/
theorem C7_witness :
    ((⟨"/d/50wait", true, .ok [doneChunk (.wfail "ECHILD")]⟩ : FileCtx).spawn
        = .ok [doneChunk (.wfail "ECHILD")] →
      act_on_file ⟨false, false, false, false, false⟩
          ⟨"/d/50wait", true, .ok [doneChunk (.wfail "ECHILD")]⟩ ⟨0⟩
        = .ok ⟨exitcode.SOFTWARE⟩
      ∧ run_files ⟨false, false, false, false, false⟩
          [⟨"/d/50wait", true, .ok [doneChunk (.wfail "ECHILD")]⟩] ⟨0⟩
        = run_files ⟨false, false, false, false, false⟩ [] ⟨exitcode.SOFTWARE⟩)
    ∧ ((⟨"/d/50wait", true, .ok [doneChunk (.wfail "ECHILD")]⟩ : FileCtx).spawn
        = .spawnErr "x" →
      act_on_file ⟨false, false, false, false, false⟩
          ⟨"/d/50wait", true, .ok [doneChunk (.wfail "ECHILD")]⟩ ⟨0⟩
        = .panic
      ∧ run_files ⟨false, false, false, false, false⟩
          [⟨"/d/50wait", true, .ok [doneChunk (.wfail "ECHILD")]⟩] ⟨0⟩
        = .panic) :=
  C7_amended_local_failures ⟨false, false, false, false, false⟩
    ⟨"/d/50wait", true, .ok [doneChunk (.wfail "ECHILD")]⟩ ⟨0⟩ "ECHILD" "x" []
    rfl rfl rfl rfl

/-- C8: per-producer FIFO of the multiplexer (spec-modelled: the Mux is the
external io_mux crate): whatever the delivery schedule, the chunks the
consumer observes from one producer are exactly an in-order initial segment
of what that producer wrote — same relative order, nothing reordered. -/
theorem C8_mux_per_producer_fifo {P β : Type} [DecidableEq P] (sched : List P)
    (q : P → List β) (p : P) :
    ∃ t, Mux.proj p (Mux.deliver sched q) ++ t = q p :=
  Mux.deliver_fifo sched q p

/-- C9: a wait-failure done payload always starts with the bytes of
"Error: ", hence has length strictly greater than one, is never equal to a
single-byte payload, and is therefore always classified by the read loop as
the internal-error branch, never as a normal exit status. -/
theorem C9_wait_error_never_single_byte (msg : String)
    (wfn : List Nat → Option String → List Nat) (s : LoopState) (b : Nat) :
    (∃ t, watcherPayload (.wfail msg) = strBytes "Error: " ++ t)
    ∧ 1 < (watcherPayload (.wfail msg)).length
    ∧ watcherPayload (.wfail msg) ≠ [b]
    ∧ (step wfn s (doneChunk (.wfail msg))).status = ⟨exitcode.SOFTWARE⟩ := by
  obtain ⟨t, hpt⟩ := watcherPayload_wfail msg
  refine ⟨?_, by rw [hpt]; simp, by rw [hpt]; simp, by rw [step_done_wfail]⟩
  exact ⟨strBytes (msg ++ "\n"),
    by simp [watcherPayload, strBytes, String.data_append, List.append_assoc]⟩

/-- C10: without --exit-on-error, `act_on_file` resets the status register
before the list/executable/test checks, so whenever the last file processed
is skipped (list mode, not executable, or test mode) a completed run ends
with status success (0), erasing any earlier script's non-zero exit code. -/
theorem C10_skip_resets_status (opt : Opt) (files : List FileCtx) (l : FileCtx)
    (st st' : Status) (he : opt.exit_on_error = false)
    (hskip : opt.list = true ∨ l.executable = false ∨ opt.test = true)
    (hrun : run_files opt (files ++ [l]) st = .ok st') :
    st'.exit_code = 0 := by
  rw [run_files_append] at hrun
  cases h : run_files opt files st with
  | panic => rw [h] at hrun; simp at hrun
  | ok st₁ =>
    rw [h] at hrun
    simp only at hrun
    rw [act_on_file_skip opt l st₁ he hskip] at hrun
    injection hrun with h2
    rw [← h2]
    rfl

/-- Witness for C10: a script exits 42, then a non-executable file is
processed; the run completes with status 0, the 42 erased. -/
theorem C10_witness :
    run_files ⟨false, false, false, false, false⟩
        ([⟨"/d/05fail", true, .ok [doneChunk (.ok (.exited 42))]⟩]
          ++ [⟨"/d/10skip", false, .ok []⟩]) ⟨0⟩
      = .ok ⟨0⟩
    ∧ (⟨0⟩ : Status).exit_code = 0 :=
  ⟨by decide,
   C10_skip_resets_status ⟨false, false, false, false, false⟩
     [⟨"/d/05fail", true, .ok [doneChunk (.ok (.exited 42))]⟩]
     ⟨"/d/10skip", false, .ok []⟩ ⟨0⟩ ⟨0⟩ rfl (Or.inr (Or.inl rfl)) (by decide)⟩
